import Mathlib

/-!
Verification of the Yasno-Power-Outages integration core
(`calendar.py` and `custom_components/yasno_outages/calendar.py`).

The Python code is shallowly embedded:

* JSON documents (the value returned by `response.json()`) are the
  inductive type `Json`; Python dicts are insertion-ordered association
  lists, which is how CPython iterates them.
* Python exceptions are modelled with `Except PyErr`; `PyErr`
  distinguishes the exception classes that the code's `try` block
  catches (`ValueError`, `KeyError`) from those it does not
  (`TypeError`, `AttributeError`, `NameError`).
* JSON numbers are rationals.  CPython parses JSON numbers into IEEE-754
  doubles, every one of which is a rational, and the claims are settled
  at inputs where each intermediate float operation of the code is
  exact, so the rational model computes exactly what the float code
  computes there (this is spelled out where it matters, in the
  `_format_hours` analysis).
* `datetime.strptime(_, "%d.%m.%Y %H:%M")` is modelled by a
  character-level parser with CPython's field regexes (`%d` two digits
  max, value 1-31 and at most the month length; `%m` 1-12; `%Y` exactly
  four digits, year at least 1; `%H` 0-23; `%M` 0-59).
* All datetimes carry the same fixed time zone in the code, so datetime
  comparison is the lexicographic order on
  (year, month, day, hour, minute), which is the `DateTime` order here.
-/

namespace Yasno

/-- JSON values as returned by `response.json()`.  An object keeps its
fields as an insertion-ordered association list, matching dict iteration
order in CPython. -/
inductive Json where
  | null
  | bool (b : Bool)
  | num (q : ℚ)
  | str (s : String)
  | arr (items : List Json)
  | obj (fields : List (String × Json))

/-- First value bound to `key` in an association list (Python dict lookup;
keys of a parsed dict are unique, and lookup takes the first binding). -/
def lookupKey : List (String × Json) → String → Option Json
  | [], _ => none
  | (k, v) :: rest, key => if k = key then some v else lookupKey rest key

/-- Python truthiness of a JSON value: `None`, `False`, `0`, `""`, `[]`
and `{}` are falsy, everything else is truthy. -/
def truthy : Json → Bool
  | .null => false
  | .bool b => b
  | .num q => decide (q ≠ 0)
  | .str s => decide (s ≠ "")
  | .arr items => !items.isEmpty
  | .obj fields => !fields.isEmpty

/-- `_extract_schedule(data, target)` from both `calendar.py` files:
if `data` is a dict containing `target`, return its value; otherwise
recurse into dict values, then list items, in order, returning the first
recursive result `result` that passes the `if result:` truthiness test;
scalars yield `None`. -/
def find (j : Json) (key : String) : Option Json :=
  match j with
  | .obj fields =>
      match lookupKey fields key with
      | some v => some v
      | none => goFields fields
  | .arr items => goItems items
  | _ => none
where
  goFields : List (String × Json) → Option Json
    | [] => none
    | (_, v) :: rest =>
        match find v key with
        | some r => if truthy r then some r else goFields rest
        | none => goFields rest
  goItems : List Json → Option Json
    | [] => none
    | item :: rest =>
        match find item key with
        | some r => if truthy r then some r else goItems rest
        | none => goItems rest

/-- The extractor as the specification describes it: the value bound to
the first-encountered instance of the key under a depth-first,
parent-before-children, sibling-order traversal, where a key present in
the current object wins immediately; absence propagates only when the
key occurs nowhere. -/
def findSpec (j : Json) (key : String) : Option Json :=
  match j with
  | .obj fields =>
      match lookupKey fields key with
      | some v => some v
      | none => goFields fields
  | .arr items => goItems items
  | _ => none
where
  goFields : List (String × Json) → Option Json
    | [] => none
    | (_, v) :: rest =>
        match findSpec v key with
        | some r => some r
        | none => goFields rest
  goItems : List Json → Option Json
    | [] => none
    | item :: rest =>
        match findSpec item key with
        | some r => some r
        | none => goItems rest

/-- Does `key` occur as an object key anywhere in the tree? -/
def occursKey (j : Json) (key : String) : Bool :=
  match j with
  | .obj fields => (lookupKey fields key).isSome || goFields fields
  | .arr items => goItems items
  | _ => false
where
  goFields : List (String × Json) → Bool
    | [] => false
    | (_, v) :: rest => occursKey v key || goFields rest
  goItems : List Json → Bool
    | [] => false
    | item :: rest => occursKey item key || goItems rest

/-- The candidate values the code's traversal can actually see, in
visitation order: an object that binds the key contributes exactly that
binding (the rest of its subtree is pruned, because the code returns at
that point); otherwise children are visited in order. -/
def cands (j : Json) (key : String) : List Json :=
  match j with
  | .obj fields =>
      match lookupKey fields key with
      | some v => [v]
      | none => goFields fields
  | .arr items => goItems items
  | _ => []
where
  goFields : List (String × Json) → List Json
    | [] => []
    | (_, v) :: rest => cands v key ++ goFields rest
  goItems : List Json → List Json
    | [] => []
    | item :: rest => cands item key ++ goItems rest

/-- What `find` actually computes, phrased non-recursively at the root:
a binding in the root object itself is returned even when falsy;
otherwise the first truthy pruned-traversal candidate is returned. -/
def amendedFind (j : Json) (key : String) : Option Json :=
  match j with
  | .obj fields =>
      match lookupKey fields key with
      | some v => some v
      | none => (cands j key).find? truthy
  | _ => (cands j key).find? truthy

/-- Python exception classes that the embedded code can raise.  The
per-day `try` block in `_async_update_data` catches exactly `ValueError`
and `KeyError`. -/
inductive PyErr where
  | typeError
  | attrError
  | keyError
  | valueError
  | nameError
deriving DecidableEq

/-- Is the exception one of the classes caught by the per-day
`except ValueError / except KeyError` handlers? -/
def caughtErr : PyErr → Bool
  | .keyError => true
  | .valueError => true
  | _ => false

/-- A timezone-aware `datetime` as built by the code.  Every datetime in
the program carries the same fixed `Europe/Kiev` zone, so comparison is
the lexicographic order on the components. -/
structure DateTime where
  year : ℕ
  month : ℕ
  day : ℕ
  hour : ℕ
  minute : ℕ
deriving DecidableEq

/-- The components of a datetime, as a lexicographically ordered tuple. -/
def DateTime.key (t : DateTime) : ℕ ×ₗ (ℕ ×ₗ (ℕ ×ₗ (ℕ ×ₗ ℕ))) :=
  toLex (t.year, toLex (t.month, toLex (t.day, toLex (t.hour, t.minute))))

theorem DateTime.key_injective : Function.Injective DateTime.key := by
  intro a b h
  cases a; cases b
  simpa [DateTime.key, Prod.ext_iff] using h

instance : LinearOrder DateTime := LinearOrder.lift' DateTime.key DateTime.key_injective

theorem DateTime.le_iff (a b : DateTime) : a ≤ b ↔
    (a.year < b.year ∨ (a.year = b.year ∧ (a.month < b.month ∨ (a.month = b.month ∧
      (a.day < b.day ∨ (a.day = b.day ∧ (a.hour < b.hour ∨ (a.hour = b.hour ∧
        a.minute ≤ b.minute)))))))) := by
  show DateTime.key a ≤ DateTime.key b ↔ _
  simp [DateTime.key, Prod.Lex.le_iff]

theorem DateTime.lt_iff (a b : DateTime) : a < b ↔
    (a.year < b.year ∨ (a.year = b.year ∧ (a.month < b.month ∨ (a.month = b.month ∧
      (a.day < b.day ∨ (a.day = b.day ∧ (a.hour < b.hour ∨ (a.hour = b.hour ∧
        a.minute < b.minute)))))))) := by
  show DateTime.key a < DateTime.key b ↔ _
  simp [DateTime.key, Prod.Lex.lt_iff]

/-- Python `int(q)` on a number: truncation towards zero. -/
def pytrunc (q : ℚ) : ℤ := if 0 ≤ q then ⌊q⌋ else ⌈q⌉

/-- The character for a decimal digit. -/
def digitChar (n : ℕ) : Char := Char.ofNat (48 + n)

/-- Decimal digits of a natural number (helper for `natChars`, fuelled
so that it is structurally recursive; `natChars` always supplies enough
fuel). -/
def natCharsGo : ℕ → ℕ → List Char → List Char
  | 0, _, acc => acc
  | fuel + 1, n, acc =>
      if n < 10 then digitChar n :: acc
      else natCharsGo fuel (n / 10) (digitChar (n % 10) :: acc)

/-- Decimal digits of a natural number, most significant first. -/
def natChars (n : ℕ) : List Char := natCharsGo (n + 1) n []

/-- Python `f"{n:02d}"`: decimal rendering of an integer, left-padded
with `0` to width two (the sign counts towards the width). -/
def pad2 (n : ℤ) : List Char :=
  if 0 ≤ n then
    (if n < 10 then '0' :: natChars n.toNat else natChars n.toNat)
  else '-' :: natChars (-n).toNat

/-- `_format_hours(hours)` from both `calendar.py` files, on a number:
`whole_hours = int(hours)`, `minutes = int((hours - whole_hours) * 60)`,
rendered as `f"{whole_hours:02d}:{minutes:02d}"`.

The Python code computes with IEEE-754 doubles.  This definition uses
exact rational arithmetic; at every input where the two float
subtractions and the multiplication by 60 are exact (in particular at
all inputs used in the theorems below, where this is argued), it returns
exactly the string the Python code returns. -/
def formatHoursChars (q : ℚ) : List Char :=
  let whole := pytrunc q
  let minutes := pytrunc ((q - (whole : ℚ)) * 60)
  pad2 whole ++ ':' :: pad2 minutes

/-- `_format_hours` packaged as a string. -/
def formatHours (q : ℚ) : String := String.mk (formatHoursChars q)

/-- Minute field as the claim describes the decoding: `round((value -
whole hour) * 60)` instead of the code's `int(...)` truncation (round
half up; the inputs compared below are nowhere near a tie). -/
def formatHoursRounded (q : ℚ) : String :=
  let whole := pytrunc q
  let minutes := ⌊(q - (whole : ℚ)) * 60 + 1/2⌋
  String.mk (pad2 whole ++ ':' :: pad2 minutes)

/-- Leading decimal digits of a character list, the digits' value and
the rest (helper of the `strptime` model). -/
def takeDigits : List Char → List Char × List Char
  | [] => ([], [])
  | c :: rest =>
      if c.isDigit then
        let (ds, r) := takeDigits rest
        (c :: ds, r)
      else ([], c :: rest)

/-- Numeric value of a digit string. -/
def digitsVal (ds : List Char) : ℕ :=
  ds.foldl (fun acc c => 10 * acc + (c.toNat - 48)) 0

/-- Day count of a month, with the Gregorian leap rule (CPython's
`datetime` validation). -/
def daysInMonth (m y : ℕ) : ℕ :=
  if m = 2 then
    (if y % 4 = 0 ∧ (y % 100 ≠ 0 ∨ y % 400 = 0) then 29 else 28)
  else if m = 4 ∨ m = 6 ∨ m = 9 ∨ m = 11 then 30
  else 31

/-- Time-of-day stage of the `strptime` model: after the date fields
and the format's blank, match `%H`, a literal colon, `%M`, require the
input to be exhausted, and check CPython's ranges (day 1-31 and within
the month, month 1-12, year at least 1, hour 0-23, minute 0-59).
Failure is the `ValueError` that `strptime` raises. -/
def parseTimePart (dds mds yds : List Char) (r6 : List Char) : Option DateTime :=
  let r7 := r6.dropWhile (fun c => c = ' ')
  let (hds, r8) := takeDigits r7
  match r8 with
  | ':' :: r9 =>
      let (nds, r10) := takeDigits r9
      let d := digitsVal dds
      let m := digitsVal mds
      let y := digitsVal yds
      let h := digitsVal hds
      let n := digitsVal nds
      if r10 = [] ∧
         1 ≤ dds.length ∧ dds.length ≤ 2 ∧
         1 ≤ mds.length ∧ mds.length ≤ 2 ∧
         yds.length = 4 ∧
         1 ≤ hds.length ∧ hds.length ≤ 2 ∧
         1 ≤ nds.length ∧ nds.length ≤ 2 ∧
         1 ≤ y ∧ 1 ≤ m ∧ m ≤ 12 ∧ 1 ≤ d ∧ d ≤ daysInMonth m y ∧
         h ≤ 23 ∧ n ≤ 59 then
        some ⟨y, m, d, h, n⟩
      else none
  | _ => none

/-- Year stage of the `strptime` model: `%Y` then the format's blank
(a nonempty run of spaces in the input). -/
def parseYearPart (dds mds : List Char) (r4 : List Char) : Option DateTime :=
  let (yds, r5) := takeDigits r4
  match r5 with
  | ' ' :: r6 => parseTimePart dds mds yds r6
  | _ => none

/-- Month stage of the `strptime` model: `%m` then a literal dot. -/
def parseMonthPart (dds : List Char) (r2 : List Char) : Option DateTime :=
  let (mds, r3) := takeDigits r2
  match r3 with
  | '.' :: r4 => parseYearPart dds mds r4
  | _ => none

/-- Model of `datetime.strptime(s, "%d.%m.%Y %H:%M")` on a character
list: `%d` matches one or two digits (then validated against 1-31 and
the month length), `%m` one or two, `%Y` exactly four, `%H` and `%M`
one or two, the separators are literal, the format's space matches a
nonempty run of spaces, and the whole input must be consumed. -/
def parseDateTimeChars (s : List Char) : Option DateTime :=
  let (dds, r1) := takeDigits s
  match r1 with
  | '.' :: r2 => parseMonthPart dds r2
  | _ => none

/-- `datetime.strptime(f"{date_str} {hhmm}", "%d.%m.%Y %H:%M")` as the
code calls it: the date token and the formatted time joined by one
space. -/
def parseDT (dateStr : List Char) (hhmm : List Char) : Option DateTime :=
  parseDateTimeChars (dateStr ++ ' ' :: hhmm)

/-- The part of a string before the first occurrence of a separator:
`s.split(sep)[0]` in Python (for a nonempty separator). -/
def takeUntilSep (sep : List Char) (s : List Char) : List Char :=
  match s with
  | [] => []
  | c :: rest => if sep.isPrefixOf (c :: rest) then [] else c :: takeUntilSep sep rest

/-- Python `str.title()` (ASCII case mapping): the first alphabetic
character of every run of alphabetic characters is uppercased, the
following ones lowercased. -/
def pyTitleGo : Bool → List Char → List Char
  | _, [] => []
  | prevAlpha, c :: rest =>
      (if c.isAlpha then (if prevAlpha then c.toLower else c.toUpper) else c)
        :: pyTitleGo c.isAlpha rest

/-- Python `str.title()`. -/
def pyTitle (s : String) : String := String.mk (pyTitleGo false s.data)

/-- Python substring containment `needle in hay`. -/
def strIn (needle hay : String) : Bool :=
  go hay.data
where
  go : List Char → Bool
    | [] => needle.data.isPrefixOf []
    | c :: rest => needle.data.isPrefixOf (c :: rest) || go rest

/-- Is a JSON value the given string (Python `==` between a string and
an arbitrary JSON value)? -/
def jsonStrEq (j : Json) (x : String) : Bool :=
  match j with
  | .str t => decide (t = x)
  | _ => false

/-- Python `x in v` for a string `x`: key containment for a dict,
elementwise `==` for a list, substring test for a string, `TypeError`
for every other JSON value. -/
def pyIn (x : String) (v : Json) : Except PyErr Bool :=
  match v with
  | .obj fields => .ok (lookupKey fields x).isSome
  | .arr items => .ok (items.any fun j => jsonStrEq j x)
  | .str s => .ok (strIn x s)
  | _ => .error .typeError

/-- Python `v[k]` for a string key `k`: dict lookup (`KeyError` when the
key is missing), `TypeError` on lists, strings and scalars. -/
def subscript (v : Json) (k : String) : Except PyErr Json :=
  match v with
  | .obj fields =>
      match lookupKey fields k with
      | some x => .ok x
      | none => .error .keyError
  | _ => .error .typeError

/-- Python `v.values()`: dict values in insertion order;
`AttributeError` on every other value. -/
def pyValues (v : Json) : Except PyErr (List Json) :=
  match v with
  | .obj fields => .ok (fields.map Prod.snd)
  | _ => .error .attrError

/-- Python `v.get(k, dflt)`: dict lookup with a default;
`AttributeError` on every other value. -/
def dictGet (v : Json) (k : String) (dflt : Json) : Except PyErr Json :=
  match v with
  | .obj fields => .ok ((lookupKey fields k).getD dflt)
  | _ => .error .attrError

/-- Python `for x in v`: list elements, dict keys, the characters of a
string; `TypeError` on scalars. -/
def pyIter (v : Json) : Except PyErr (List Json) :=
  match v with
  | .arr items => .ok items
  | .obj fields => .ok (fields.map fun p => Json.str p.1)
  | .str s => .ok (s.data.map fun c => Json.str (String.mk [c]))
  | _ => .error .typeError

/-- Is the string accepted by Python `int(...)`: optional surrounding
spaces, an optional sign, then a nonempty digit run? -/
def isIntLiteral (s : String) : Bool :=
  let t := ((s.data.dropWhile fun c => c = ' ').reverse.dropWhile fun c => c = ' ').reverse
  match t with
  | '+' :: ds => !ds.isEmpty && ds.all Char.isDigit
  | '-' :: ds => !ds.isEmpty && ds.all Char.isDigit
  | ds => !ds.isEmpty && ds.all Char.isDigit

/-- `_format_hours(v)` on an arbitrary JSON value.  Numbers (and bools,
which Python treats as 0 and 1 in arithmetic) format normally; a string
raises `TypeError` from `hours - whole_hours` when `int(hours)`
succeeded, and `ValueError` from `int(hours)` itself otherwise; every
other value raises `TypeError` from `int(...)`. -/
def formatHoursJson (v : Json) : Except PyErr (List Char) :=
  match v with
  | .num q => .ok (formatHoursChars q)
  | .bool b => .ok (formatHoursChars (if b then 1 else 0))
  | .str s => .error (if isIntLiteral s then .typeError else .valueError)
  | _ => .error .typeError

/-- The `CalendarEvent` record built by `_async_update_data`.  The field
called `end` in the source is `stop` here, `end` being reserved in Lean.
The type of the two instants is a parameter so that the query engine can
be stated for any linearly ordered time type; the builder instantiates
it with `DateTime`. -/
structure CalendarEvent (τ : Type) where
  summary : String
  start : τ
  stop : τ
  description : String
deriving DecidableEq

/-- The event record appended by the builder. -/
def mkEvent (group city : String) (s t : DateTime) : CalendarEvent DateTime :=
  { summary := "Power Outage Group " ++ group
    start := s
    stop := t
    description := "Scheduled power outage for group " ++ group ++ " in " ++ pyTitle city }

/-- The dedup scan of `_async_update_data`: does any already-accumulated
event `e` satisfy `e.start <= start_time <= e.end or
e.start <= end_time <= e.end or (start_time <= e.start and
end_time >= e.end)`? -/
def overlapsExisting (events : List (CalendarEvent DateTime)) (s t : DateTime) : Bool :=
  events.any fun e =>
    decide ((e.start ≤ s ∧ s ≤ e.stop) ∨ (e.start ≤ t ∧ t ≤ e.stop) ∨
      (s ≤ e.start ∧ e.stop ≤ t))

/-- One iteration of the period loop: format both fractional hours,
parse both timestamps, then append unless the dedup scan suppresses the
new interval.  Errors abort the day's loop (modelled by the caller). -/
def processPeriod (city group : String) (dateStr : List Char)
    (events : List (CalendarEvent DateTime)) (period : Json) :
    Except PyErr (List (CalendarEvent DateTime)) :=
  match subscript period "start" with
  | .error e => .error e
  | .ok sv =>
    match formatHoursJson sv with
    | .error e => .error e
    | .ok sh =>
      match subscript period "end" with
      | .error e => .error e
      | .ok ev =>
        match formatHoursJson ev with
        | .error e => .error e
        | .ok eh =>
          match parseDT dateStr sh with
          | none => .error .valueError
          | some startT =>
            match parseDT dateStr eh with
            | none => .error .valueError
            | some endT =>
              if overlapsExisting events startT endT then .ok events
              else .ok (events ++ [mkEvent group city startT endT])

/-- The period loop.  An exception stops the loop; events appended by
earlier iterations remain (the Python list was mutated in place). -/
def processPeriods (city group : String) (dateStr : List Char) :
    List Json → List (CalendarEvent DateTime) →
    List (CalendarEvent DateTime) × Option PyErr
  | [], events => (events, none)
  | p :: rest, events =>
      match processPeriod city group dateStr events p with
      | .ok ev => processPeriods city group dateStr rest ev
      | .error e => (events, some e)

/-- The body of the per-day `try` block: fetch and split the title,
fetch the group's period list, iterate it.  Returns the accumulated
events together with the exception that stopped the block, if any. -/
def tryDay (city group : String) (events0 : List (CalendarEvent DateTime))
    (day : Json) : List (CalendarEvent DateTime) × Option PyErr :=
  match subscript day "title" with
  | .error e => (events0, some e)
  | .ok t =>
      match t with
      | .str s =>
          let dateStr := takeUntilSep " на ".data s.data
          match subscript day "groups" with
          | .error e => (events0, some e)
          | .ok gv =>
              match subscript gv group with
              | .error e => (events0, some e)
              | .ok pj =>
                  match pyIter pj with
                  | .error e => (events0, some e)
                  | .ok periods => processPeriods city group dateStr periods events0
      | _ => (events0, some .attrError)

/-- One iteration of the day loop: skip the day unless `group` is in
`day_data.get("groups", {})`, then run the `try` block, catching
`ValueError` and `KeyError` only. -/
def processDay (city group : String) (events0 : List (CalendarEvent DateTime))
    (day : Json) : Except PyErr (List (CalendarEvent DateTime)) :=
  match dictGet day "groups" (Json.obj []) with
  | .error e => .error e
  | .ok g =>
      match pyIn group g with
      | .error e => .error e
      | .ok false => .ok events0
      | .ok true =>
          match tryDay city group events0 day with
          | (ev, none) => .ok ev
          | (ev, some e) => if caughtErr e then .ok ev else .error e

/-- The day loop over `city_data.values()`. -/
def processDays (city group : String) :
    List Json → List (CalendarEvent DateTime) →
    Except PyErr (List (CalendarEvent DateTime))
  | [], events => .ok events
  | d :: rest, events =>
      match processDay city group events d with
      | .ok ev => processDays city group rest ev
      | .error e => .error e

/-- Processing of one schedule type: extract the sub-document, skip it
when falsy or when `city in schedule` is false, otherwise iterate the
city's days. -/
def processSchedule (data : Json) (target city group : String)
    (events0 : List (CalendarEvent DateTime)) :
    Except PyErr (List (CalendarEvent DateTime)) :=
  match find data target with
  | none => .ok events0
  | some sched =>
      if truthy sched then
        match pyIn city sched with
        | .error e => .error e
        | .ok false => .ok events0
        | .ok true =>
            match subscript sched city with
            | .error e => .error e
            | .ok cityData =>
                match pyValues cityData with
                | .error e => .error e
                | .ok days => processDays city group days events0
      else .ok events0

/-- Stable insertion into a list sorted by `start`. -/
def insertByStart (e : CalendarEvent DateTime) :
    List (CalendarEvent DateTime) → List (CalendarEvent DateTime)
  | [] => [e]
  | x :: xs => if e.start ≤ x.start then e :: x :: xs else x :: insertByStart e xs

/-- `sorted(events, key=lambda x: x.start)`: the stable ascending sort
by `start` (any stable sort computes the same list, so insertion sort is
used). -/
def sortByStart (l : List (CalendarEvent DateTime)) : List (CalendarEvent DateTime) :=
  l.foldr insertByStart []

/-- `_async_update_data` after the fetch: process `dailySchedule` then
`tomorrowSchedule` against one shared event list, then sort by start. -/
def buildEvents (data : Json) (city group : String) :
    Except PyErr (List (CalendarEvent DateTime)) :=
  match processSchedule data "dailySchedule" city group [] with
  | .error e => .error e
  | .ok e1 =>
      match processSchedule data "tomorrowSchedule" city group e1 with
      | .error e => .error e
      | .ok e2 => .ok (sortByStart e2)

/-- The tri-state grid status kept in `_internal_state` by the
`custom_components` calendar entity. -/
inductive GridStatus where
  | noSchedule
  | gridOn
  | outage
deriving DecidableEq

/-- The `state` property of the `custom_components` entity, reduced to
the tri-state it stores: `no_schedule` when the event list is empty,
`outage` when `next(...)` finds an event with `start <= now <= end`,
`grid_on` otherwise. -/
def statusAt {τ : Type} [LinearOrder τ] (events : List (CalendarEvent τ)) (now : τ) :
    GridStatus :=
  if events.isEmpty then .noSchedule
  else if (events.find? fun e => decide (e.start ≤ now ∧ now ≤ e.stop)).isSome then .outage
  else .gridOn

/-- Python `min(xs, key=lambda x: x.start)` on a nonempty list: the
first element whose key is minimal (Python replaces the running minimum
only on strict `<`). -/
def minByStart {τ : Type} [LinearOrder τ] :
    List (CalendarEvent τ) → Option (CalendarEvent τ)
  | [] => none
  | x :: xs => some (xs.foldl (fun b e => if e.start < b.start then e else b) x)

/-- The `event` property of `src/calendar.py`: the minimum-start event
among those with `end > now`, absent if none. -/
def eventSrc {τ : Type} [LinearOrder τ] (events : List (CalendarEvent τ)) (now : τ) :
    Option (CalendarEvent τ) :=
  minByStart (events.filter fun e => decide (now < e.stop))

/-- The `event` property of the `custom_components` calendar: the first
event with `start <= now <= end` if one exists, else the minimum-start
event among those with `start > now`, absent if none. -/
def eventCustom {τ : Type} [LinearOrder τ] (events : List (CalendarEvent τ)) (now : τ) :
    Option (CalendarEvent τ) :=
  match events.find? fun e => decide (e.start ≤ now ∧ now ≤ e.stop) with
  | some e => some e
  | none => minByStart (events.filter fun e => decide (now < e.start))

/-- `async_get_events` of `src/calendar.py`: keep the events whose start
falls in the window, whose end falls in the window, or which contain the
window, all boundaries inclusive. -/
def getEventsSrc {τ : Type} [LinearOrder τ] (events : List (CalendarEvent τ))
    (a b : τ) : List (CalendarEvent τ) :=
  events.filter fun e =>
    decide ((a ≤ e.start ∧ e.start ≤ b) ∨ (a ≤ e.stop ∧ e.stop ≤ b) ∨
      (e.start ≤ a ∧ b ≤ e.stop))

/-- `async_get_events` of the `custom_components` calendar.  Its second
disjunct reads `start_datetime <= end.start <= end_datetime` where `end`
is an undefined name, so for the first event whose start is outside the
window the comprehension's `or` must evaluate the second disjunct and
raises `NameError`; events are kept only while the first disjunct
short-circuits the rest. -/
def getEventsCustom {τ : Type} [LinearOrder τ] (events : List (CalendarEvent τ))
    (a b : τ) : Except PyErr (List (CalendarEvent τ)) :=
  match events with
  | [] => .ok []
  | e :: rest =>
      if a ≤ e.start ∧ e.start ≤ b then
        match getEventsCustom rest a b with
        | .ok l => .ok (e :: l)
        | .error er => .error er
      else .error .nameError

/-- Claim C3's wording: an existing interval contains an instant under
inclusive boundaries. -/
abbrev containsPoint (e : CalendarEvent DateTime) (t : DateTime) : Prop :=
  e.start ≤ t ∧ t ≤ e.stop

/-- Claim C3's wording: the new interval `[s, t]` fully contains an
existing interval. -/
abbrev coversExisting (s t : DateTime) (e : CalendarEvent DateTime) : Prop :=
  s ≤ e.start ∧ e.stop ≤ t

/-- Claim C3's suppression condition for one already-accumulated
interval against a newly decoded interval `[s, t]`. -/
def suppressClaim (e : CalendarEvent DateTime) (s t : DateTime) : Bool :=
  decide (containsPoint e s) || decide (containsPoint e t) || decide (coversExisting s t e)

/-- A period entry `{"start": qs, "end": qe}`. -/
def periodJson (qs qe : ℚ) : Json :=
  Json.obj [("start", Json.num qs), ("end", Json.num qe)]

/-- A one-day document for city `kiev`, group `1`, with the given
period list under the date 21.11.2024. -/
def oneDayDoc (periods : List Json) : Json :=
  Json.obj [("dailySchedule", Json.obj [("kiev", Json.obj [("d", Json.obj [
    ("title", Json.str "21.11.2024 на 21 листопада"),
    ("groups", Json.obj [("1", Json.arr periods)])])])])]

/-! ### The extractor (claim C1) -/

theorem or_of_find?_truthy {l : List Json} {X : Option Json} :
    (match (l.find? truthy) with
      | some r => if truthy r then some r else X
      | none => X) = (l.find? truthy).or X := by
  match h : l.find? truthy with
  | some r => simp [List.find?_some h]
  | none => simp

mutual
theorem find_eq_amendedFind (j : Json) (key : String) :
    find j key = amendedFind j key := by
  match j with
  | .null | .bool _ | .num _ | .str _ => rfl
  | .arr items =>
      show find.goItems key items = _
      rw [goItems_eq_find?]
      rfl
  | .obj fields =>
      show (match lookupKey fields key with
        | some v => some v
        | none => find.goFields key fields) = _
      match h : lookupKey fields key with
      | some v => simp [amendedFind, h]
      | none => rw [goFields_eq_find?]; simp [amendedFind, cands, h]

theorem goFields_eq_find? (key : String) (fields : List (String × Json)) :
    find.goFields key fields = (cands.goFields key fields).find? truthy := by
  match fields with
  | [] => rfl
  | (s, v) :: rest =>
      show (match find v key with
        | some r => if truthy r then some r else find.goFields key rest
        | none => find.goFields key rest) = _
      rw [show cands.goFields key ((s, v) :: rest)
            = cands v key ++ cands.goFields key rest from rfl,
          List.find?_append, goFields_eq_find? key rest,
          find_eq_amendedFind v key]
      match v with
      | .null | .bool _ | .num _ | .str _ => rfl
      | .arr items => simp [amendedFind]; rw [or_of_find?_truthy]
      | .obj f2 =>
          show (match (match lookupKey f2 key with
                  | some w => some w
                  | none => (cands (Json.obj f2) key).find? truthy) with
            | some r => if truthy r then some r else (cands.goFields key rest).find? truthy
            | none => (cands.goFields key rest).find? truthy) = _
          match h : lookupKey f2 key with
          | some w =>
              simp only [cands, h]
              show (if truthy w then some w else _) = ([w].find? truthy).or _
              match ht : truthy w with
              | true => simp [List.find?, ht]
              | false => simp [List.find?, ht]
          | none =>
              simp only [cands, h]
              rw [or_of_find?_truthy]

theorem goItems_eq_find? (key : String) (items : List Json) :
    find.goItems key items = (cands.goItems key items).find? truthy := by
  match items with
  | [] => rfl
  | v :: rest =>
      show (match find v key with
        | some r => if truthy r then some r else find.goItems key rest
        | none => find.goItems key rest) = _
      rw [show cands.goItems key (v :: rest)
            = cands v key ++ cands.goItems key rest from rfl,
          List.find?_append, goItems_eq_find? key rest,
          find_eq_amendedFind v key]
      match v with
      | .null | .bool _ | .num _ | .str _ => rfl
      | .arr its => simp [amendedFind]; rw [or_of_find?_truthy]
      | .obj f2 =>
          show (match (match lookupKey f2 key with
                  | some w => some w
                  | none => (cands (Json.obj f2) key).find? truthy) with
            | some r => if truthy r then some r else (cands.goItems key rest).find? truthy
            | none => (cands.goItems key rest).find? truthy) = _
          match h : lookupKey f2 key with
          | some w =>
              simp only [cands, h]
              show (if truthy w then some w else _) = ([w].find? truthy).or _
              match ht : truthy w with
              | true => simp [List.find?, ht]
              | false => simp [List.find?, ht]
          | none =>
              simp only [cands, h]
              rw [or_of_find?_truthy]
end

/-- C1, counterexample.  The claim says `find` returns the value of the
first-encountered instance of the key under the depth-first traversal
and is absent exactly when the key occurs nowhere, the bound value never
affecting the outcome.  In the document `{"a": {"k": {}}}` the key `"k"`
occurs and the traversal's first instance binds `{}`, yet `find` returns
absent: the recursive result `{}` fails the code's `if result:`
truthiness test. -/
theorem C1_counterexample :
    find (Json.obj [("a", Json.obj [("k", Json.obj [])])]) "k" = none ∧
    occursKey (Json.obj [("a", Json.obj [("k", Json.obj [])])]) "k" = true ∧
    findSpec (Json.obj [("a", Json.obj [("k", Json.obj [])])]) "k"
      = some (Json.obj []) :=
  ⟨rfl, rfl, rfl⟩

/-- C1, amended.  `find` returns the value bound to the key in the root
object itself when there is one, even a falsy one; otherwise it returns
the first truthy value among the candidates of the pruned depth-first
traversal, in which an object that binds the key contributes exactly
that binding and its other subtrees are not visited; it returns absent
when no truthy candidate exists, so falsy bound values (`{}`, `[]`, `0`,
`""`, `false`, `null`) below the root are skipped even though the key
occurs. -/
theorem C1_find_first_truthy_candidate (j : Json) (key : String) :
    find j key = amendedFind j key :=
  find_eq_amendedFind j key

/-! ### Fractional-hour decoding (claim C2) -/

/-- C2.  The spec's examples hold, but the round-trip does not: the
claim says decoding an input of the form `H + M/60` yields exactly hour
`H` and minute `M`, via `minutes = round((value - whole) * 60)`.  The
code computes `minutes = int(...)`, truncation.  The IEEE-754 double
nearest to `1 + 1/60` is `q0 = 4578659621160004 / 2^52` (the last
conjuncts place `q0` within half an ulp, `2^-53`, of `61/60`); on it the
code's float computation is step-for-step exact rational arithmetic
(`int(q0) = 1` is exact, `q0 - 1` is exact by Sterbenz's lemma, and
`(q0 - 1) * 60 = 4503599627370480 / 2^52` has a 48-bit numerator, hence
is representable), so the code returns `"01:00"` where the claimed
decoding returns `"01:01"`: the minute `01` collapses to `00`. -/
theorem C2_truncation_drops_minute :
    formatHours (27 / 2) = "13:30" ∧
    formatHours 0 = "00:00" ∧
    formatHours (95 / 4) = "23:45" ∧
    formatHours (4578659621160004 / 4503599627370496) = "01:00" ∧
    formatHoursRounded (4578659621160004 / 4503599627370496) = "01:01" ∧
    (1 + 1 / 60 : ℚ) - 1 / 2 ^ 53 < 4578659621160004 / 4503599627370496 ∧
    (4578659621160004 / 4503599627370496 : ℚ) < 1 + 1 / 60 := by
  have h135w : pytrunc (27 / 2 : ℚ) = 13 := by norm_num [pytrunc]
  have h135m : pytrunc (((27 / 2 : ℚ) - ((13 : ℤ) : ℚ)) * 60) = 30 := by
    norm_num [pytrunc]
  have h0w : pytrunc (0 : ℚ) = 0 := by norm_num [pytrunc]
  have h0m : pytrunc (((0 : ℚ) - ((0 : ℤ) : ℚ)) * 60) = 0 := by norm_num [pytrunc]
  have h2345w : pytrunc (95 / 4 : ℚ) = 23 := by norm_num [pytrunc]
  have h2345m : pytrunc (((95 / 4 : ℚ) - ((23 : ℤ) : ℚ)) * 60) = 45 := by
    norm_num [pytrunc]
  have hq0w : pytrunc (4578659621160004 / 4503599627370496 : ℚ) = 1 := by
    norm_num [pytrunc]
  have hq0m : pytrunc (((4578659621160004 / 4503599627370496 : ℚ) - ((1 : ℤ) : ℚ)) * 60)
      = 0 := by
    norm_num [pytrunc]
  have hq0r : (⌊((4578659621160004 / 4503599627370496 : ℚ) - ((1 : ℤ) : ℚ)) * 60 + 1 / 2⌋ : ℤ)
      = 1 := by
    norm_num
  refine ⟨?_, ?_, ?_, ?_, ?_, by norm_num, by norm_num⟩
  · show String.mk (formatHoursChars _) = _
    rw [formatHoursChars]
    simp only [h135w, h135m]
    rfl
  · show String.mk (formatHoursChars _) = _
    rw [formatHoursChars]
    simp only [h0w, h0m]
    rfl
  · show String.mk (formatHoursChars _) = _
    rw [formatHoursChars]
    simp only [h2345w, h2345m]
    rfl
  · show String.mk (formatHoursChars _) = _
    rw [formatHoursChars]
    simp only [hq0w, hq0m]
    rfl
  · rw [formatHoursRounded]
    simp only [hq0w, hq0r]
    rfl

/-! ### Evaluation lemmas for the time decoder on the inputs used below -/

theorem fh0 : formatHoursChars 0 = "00:00".data := by
  rw [formatHoursChars]; norm_num [pytrunc]; rfl

theorem fh5 : formatHoursChars 5 = "05:00".data := by
  rw [formatHoursChars]; norm_num [pytrunc]; rfl

theorem fh6 : formatHoursChars 6 = "06:00".data := by
  rw [formatHoursChars]; norm_num [pytrunc]; rfl

theorem fh10 : formatHoursChars 10 = "10:00".data := by
  rw [formatHoursChars]; norm_num [pytrunc]; rfl

theorem fh11 : formatHoursChars 11 = "11:00".data := by
  rw [formatHoursChars]; norm_num [pytrunc]; rfl

theorem fh12 : formatHoursChars 12 = "12:00".data := by
  rw [formatHoursChars]; norm_num [pytrunc]; rfl

theorem fh13 : formatHoursChars 13 = "13:00".data := by
  rw [formatHoursChars]; norm_num [pytrunc]; rfl

theorem fh22 : formatHoursChars 22 = "22:00".data := by
  rw [formatHoursChars]; norm_num [pytrunc]; rfl

theorem fh24 : formatHoursChars 24 = "24:00".data := by
  rw [formatHoursChars]; norm_num [pytrunc]; rfl

/-! ### The dedup scan (claim C3) -/

theorem overlapsExisting_eq_suppress (events : List (CalendarEvent DateTime))
    (s t : DateTime) :
    overlapsExisting events s t = events.any fun e => suppressClaim e s t := by
  unfold overlapsExisting suppressClaim
  congr 1
  funext e
  simp [containsPoint, coversExisting]
  rw [Bool.or_assoc]

/-- The build on a one-day, one-city (`kiev`), one-group (`1`) document:
it reduces to the period loop over the day's period list, wrapped in the
day-level exception handling, when the document contains no
`tomorrowSchedule` key anywhere under the periods. -/
theorem buildEvents_oneDayDoc (ps : List Json)
    (hno : find (oneDayDoc ps) "tomorrowSchedule" = none) :
    buildEvents (oneDayDoc ps) "kiev" "1" =
      match processPeriods "kiev" "1" "21.11.2024".data ps [] with
      | (ev, none) => Except.ok (sortByStart ev)
      | (ev, some e) =>
          if caughtErr e then Except.ok (sortByStart ev) else Except.error e := by
  have hf1 : find (oneDayDoc ps) "dailySchedule"
      = some (Json.obj [("kiev", Json.obj [("d", Json.obj [
          ("title", Json.str "21.11.2024 на 21 листопада"),
          ("groups", Json.obj [("1", Json.arr ps)])])])]) := rfl
  simp only [buildEvents, processSchedule, hf1, hno,
    show truthy (Json.obj [("kiev", Json.obj [("d", Json.obj [
        ("title", Json.str "21.11.2024 на 21 листопада"),
        ("groups", Json.obj [("1", Json.arr ps)])])])]) = true from rfl,
    show pyIn "kiev" (Json.obj [("kiev", Json.obj [("d", Json.obj [
        ("title", Json.str "21.11.2024 на 21 листопада"),
        ("groups", Json.obj [("1", Json.arr ps)])])])]) = Except.ok true from rfl,
    show subscript (Json.obj [("kiev", Json.obj [("d", Json.obj [
        ("title", Json.str "21.11.2024 на 21 листопада"),
        ("groups", Json.obj [("1", Json.arr ps)])])])]) "kiev"
      = Except.ok (Json.obj [("d", Json.obj [
          ("title", Json.str "21.11.2024 на 21 листопада"),
          ("groups", Json.obj [("1", Json.arr ps)])])]) from rfl,
    show pyValues (Json.obj [("d", Json.obj [
        ("title", Json.str "21.11.2024 на 21 листопада"),
        ("groups", Json.obj [("1", Json.arr ps)])])])
      = Except.ok [Json.obj [
          ("title", Json.str "21.11.2024 на 21 листопада"),
          ("groups", Json.obj [("1", Json.arr ps)])]] from rfl,
    processDays, processDay,
    show dictGet (Json.obj [
        ("title", Json.str "21.11.2024 на 21 листопада"),
        ("groups", Json.obj [("1", Json.arr ps)])]) "groups" (Json.obj [])
      = Except.ok (Json.obj [("1", Json.arr ps)]) from rfl,
    show pyIn "1" (Json.obj [("1", Json.arr ps)]) = Except.ok true from rfl,
    tryDay,
    show subscript (Json.obj [
        ("title", Json.str "21.11.2024 на 21 листопада"),
        ("groups", Json.obj [("1", Json.arr ps)])]) "title"
      = Except.ok (Json.str "21.11.2024 на 21 листопада") from rfl,
    show takeUntilSep " на ".data "21.11.2024 на 21 листопада".data
      = "21.11.2024".data from rfl,
    show subscript (Json.obj [
        ("title", Json.str "21.11.2024 на 21 листопада"),
        ("groups", Json.obj [("1", Json.arr ps)])]) "groups"
      = Except.ok (Json.obj [("1", Json.arr ps)]) from rfl,
    show subscript (Json.obj [("1", Json.arr ps)]) "1"
      = Except.ok (Json.arr ps) from rfl,
    show pyIter (Json.arr ps) = Except.ok ps from rfl]
  rcases hpp : processPeriods "kiev" "1" "21.11.2024".data ps [] with ⟨ev, err⟩
  cases err with
  | none => rfl
  | some e =>
      by_cases hc : caughtErr e = true
      · simp only [hc, if_true]
      · simp [hc]

/-- C3.  First conjunct: the code's dedup scan condition is exactly the
claim's — some accumulated interval contains the new start (inclusive),
contains the new end (inclusive), or is fully contained in the new
interval.  Second conjunct: a decoded period is appended if and only if
no accumulated interval suppresses it, and the appended interval is
exactly the decoded one (never widened).  Third conjunct: from the
periods `[10:00,12:00]` and `[11:00,13:00]` for the same group and day,
the build yields exactly the first interval. -/
theorem C3_dedup_suppression :
    (∀ (events : List (CalendarEvent DateTime)) (s t : DateTime),
      overlapsExisting events s t = events.any fun e => suppressClaim e s t) ∧
    (∀ (city group : String) (dateStr : List Char)
        (events : List (CalendarEvent DateTime)) (qs qe : ℚ) (s t : DateTime),
      parseDT dateStr (formatHoursChars qs) = some s →
      parseDT dateStr (formatHoursChars qe) = some t →
      processPeriod city group dateStr events (periodJson qs qe) =
        .ok (if events.any (fun e => suppressClaim e s t) then events
          else events ++ [mkEvent group city s t])) ∧
    buildEvents (oneDayDoc [periodJson 10 12, periodJson 11 13]) "kiev" "1"
      = .ok [mkEvent "1" "kiev" ⟨2024, 11, 21, 10, 0⟩ ⟨2024, 11, 21, 12, 0⟩] := by
  refine ⟨overlapsExisting_eq_suppress, ?_, ?_⟩
  · intro city group dateStr events qs qe s t h1 h2
    have step : processPeriod city group dateStr events (periodJson qs qe) =
        (match parseDT dateStr (formatHoursChars qs) with
          | none => Except.error PyErr.valueError
          | some startT =>
            match parseDT dateStr (formatHoursChars qe) with
            | none => Except.error PyErr.valueError
            | some endT =>
              if overlapsExisting events startT endT then Except.ok events
              else Except.ok (events ++ [mkEvent group city startT endT])) := rfl
    rw [step]
    simp only [h1, h2]
    rw [overlapsExisting_eq_suppress, apply_ite Except.ok]
  · have p1 : processPeriod "kiev" "1" "21.11.2024".data [] (periodJson 10 12)
        = .ok [mkEvent "1" "kiev" ⟨2024, 11, 21, 10, 0⟩ ⟨2024, 11, 21, 12, 0⟩] := by
      have step1 : processPeriod "kiev" "1" "21.11.2024".data [] (periodJson 10 12) =
          (match parseDT "21.11.2024".data (formatHoursChars 10) with
            | none => Except.error PyErr.valueError
            | some startT =>
              match parseDT "21.11.2024".data (formatHoursChars 12) with
              | none => Except.error PyErr.valueError
              | some endT =>
                if overlapsExisting [] startT endT then Except.ok []
                else Except.ok ([] ++ [mkEvent "1" "kiev" startT endT])) := rfl
      rw [step1]
      simp only [fh10, fh12]
      rfl
    have p2 : processPeriod "kiev" "1" "21.11.2024".data
        [mkEvent "1" "kiev" ⟨2024, 11, 21, 10, 0⟩ ⟨2024, 11, 21, 12, 0⟩] (periodJson 11 13)
        = .ok [mkEvent "1" "kiev" ⟨2024, 11, 21, 10, 0⟩ ⟨2024, 11, 21, 12, 0⟩] := by
      have step2 : processPeriod "kiev" "1" "21.11.2024".data
          [mkEvent "1" "kiev" ⟨2024, 11, 21, 10, 0⟩ ⟨2024, 11, 21, 12, 0⟩] (periodJson 11 13) =
          (match parseDT "21.11.2024".data (formatHoursChars 11) with
            | none => Except.error PyErr.valueError
            | some startT =>
              match parseDT "21.11.2024".data (formatHoursChars 13) with
              | none => Except.error PyErr.valueError
              | some endT =>
                if overlapsExisting
                    [mkEvent "1" "kiev" ⟨2024, 11, 21, 10, 0⟩ ⟨2024, 11, 21, 12, 0⟩]
                    startT endT then
                  Except.ok [mkEvent "1" "kiev" ⟨2024, 11, 21, 10, 0⟩ ⟨2024, 11, 21, 12, 0⟩]
                else
                  Except.ok ([mkEvent "1" "kiev" ⟨2024, 11, 21, 10, 0⟩ ⟨2024, 11, 21, 12, 0⟩]
                    ++ [mkEvent "1" "kiev" startT endT])) := rfl
      rw [step2]
      simp only [fh11, fh13]
      rfl
    rw [buildEvents_oneDayDoc [periodJson 10 12, periodJson 11 13] rfl]
    simp only [processPeriods, p1, p2]
    rfl

/-- Witness for the hypothesis-bearing conjunct of `C3_dedup_suppression`:
the period `{start: 10, end: 12}` decodes against the date 21.11.2024
and, with nothing accumulated, is appended as decoded. -/
theorem C3_witness :
    processPeriod "kiev" "1" "21.11.2024".data [] (periodJson 10 12)
      = .ok (if ([] : List (CalendarEvent DateTime)).any
            (fun e => suppressClaim e ⟨2024, 11, 21, 10, 0⟩ ⟨2024, 11, 21, 12, 0⟩)
          then []
          else [] ++ [mkEvent "1" "kiev" ⟨2024, 11, 21, 10, 0⟩ ⟨2024, 11, 21, 12, 0⟩]) :=
  C3_dedup_suppression.2.1 "kiev" "1" "21.11.2024".data [] 10 12
    ⟨2024, 11, 21, 10, 0⟩ ⟨2024, 11, 21, 12, 0⟩ (by rw [fh10]; rfl) (by rw [fh12]; rfl)

/-! ### Zero-length periods (claim C4) -/

/-- C4, counterexample.  The claim says every built interval satisfies
`start < end` and zero-length periods are discarded.  The code has no
length check: a single period `{start: 10.0, end: 10.0}` produces an
interval whose start equals its end. -/
theorem C4_counterexample :
    buildEvents (oneDayDoc [periodJson 10 10]) "kiev" "1"
      = .ok [mkEvent "1" "kiev" ⟨2024, 11, 21, 10, 0⟩ ⟨2024, 11, 21, 10, 0⟩] ∧
    (mkEvent "1" "kiev" ⟨2024, 11, 21, 10, 0⟩ ⟨2024, 11, 21, 10, 0⟩).start
      = (mkEvent "1" "kiev" ⟨2024, 11, 21, 10, 0⟩ ⟨2024, 11, 21, 10, 0⟩).stop := by
  constructor
  · have p1 : processPeriod "kiev" "1" "21.11.2024".data [] (periodJson 10 10)
        = .ok [mkEvent "1" "kiev" ⟨2024, 11, 21, 10, 0⟩ ⟨2024, 11, 21, 10, 0⟩] := by
      have step1 : processPeriod "kiev" "1" "21.11.2024".data [] (periodJson 10 10) =
          (match parseDT "21.11.2024".data (formatHoursChars 10) with
            | none => Except.error PyErr.valueError
            | some startT =>
              match parseDT "21.11.2024".data (formatHoursChars 10) with
              | none => Except.error PyErr.valueError
              | some endT =>
                if overlapsExisting [] startT endT then Except.ok []
                else Except.ok ([] ++ [mkEvent "1" "kiev" startT endT])) := rfl
      rw [step1]
      simp only [fh10]
      rfl
    rw [buildEvents_oneDayDoc [periodJson 10 10] rfl]
    simp only [processPeriods, p1]
    rfl
  · rfl

/-- C4, amended.  The build applies no length filter: a period whose
decoded end is equal to or earlier than its decoded start is appended
like any other (subject only to the dedup scan), so the invariant
`start < end` does not hold of the output. -/
theorem C4_no_length_filter
    (city group : String) (dateStr : List Char)
    (events : List (CalendarEvent DateTime)) (qs qe : ℚ) (s t : DateTime)
    (h1 : parseDT dateStr (formatHoursChars qs) = some s)
    (h2 : parseDT dateStr (formatHoursChars qe) = some t)
    (hle : t ≤ s)
    (hov : overlapsExisting events s t = false) :
    processPeriod city group dateStr events (periodJson qs qe)
      = .ok (events ++ [mkEvent group city s t]) := by
  have step : processPeriod city group dateStr events (periodJson qs qe) =
      (match parseDT dateStr (formatHoursChars qs) with
        | none => Except.error PyErr.valueError
        | some startT =>
          match parseDT dateStr (formatHoursChars qe) with
          | none => Except.error PyErr.valueError
          | some endT =>
            if overlapsExisting events startT endT then Except.ok events
            else Except.ok (events ++ [mkEvent group city startT endT])) := rfl
  rw [step]
  simp [h1, h2, hov]

/-- Witness for `C4_no_length_filter`: the zero-length period
`{start: 10, end: 10}` is appended. -/
theorem C4_witness :
    processPeriod "kiev" "1" "21.11.2024".data [] (periodJson 10 10)
      = .ok ([] ++ [mkEvent "1" "kiev" ⟨2024, 11, 21, 10, 0⟩ ⟨2024, 11, 21, 10, 0⟩]) :=
  C4_no_length_filter "kiev" "1" "21.11.2024".data [] 10 10
    ⟨2024, 11, 21, 10, 0⟩ ⟨2024, 11, 21, 10, 0⟩
    (by rw [fh10]; rfl) (by rw [fh10]; rfl) (le_refl _) rfl

/-! ### Error containment (claim C5) -/

theorem dictGet_error {v : Json} {k : String} {d : Json} {e : PyErr}
    (h : dictGet v k d = .error e) : e = .attrError := by
  cases v <;> simp_all [dictGet]

theorem pyIn_error {x : String} {v : Json} {e : PyErr}
    (h : pyIn x v = .error e) : e = .typeError := by
  cases v <;> simp_all [pyIn]

theorem subscript_error {v : Json} {k : String} {e : PyErr}
    (h : subscript v k = .error e) : e = .typeError ∨ e = .keyError := by
  cases v <;> simp_all [subscript]
  case obj fields =>
    cases hl : lookupKey fields k <;> simp_all

theorem pyIter_error {v : Json} {e : PyErr}
    (h : pyIter v = .error e) : e = .typeError := by
  cases v <;> simp_all [pyIter]

theorem formatHoursJson_error {v : Json} {e : PyErr}
    (h : formatHoursJson v = .error e) : e = .typeError ∨ e = .valueError := by
  cases v <;> simp_all [formatHoursJson]
  case str s =>
    rcases hi : isIntLiteral s <;> simp_all

theorem processPeriod_error {city group : String} {dateStr : List Char}
    {events : List (CalendarEvent DateTime)} {p : Json} {r : PyErr}
    (h : processPeriod city group dateStr events p = .error r) :
    r = .typeError ∨ r = .keyError ∨ r = .valueError := by
  unfold processPeriod at h
  cases h1 : subscript p "start" with
  | error e =>
      simp only [h1] at h
      cases h
      rcases subscript_error h1 with rfl | rfl <;> simp
  | ok sv =>
  simp only [h1] at h
  cases h2 : formatHoursJson sv with
  | error e =>
      simp only [h2] at h
      cases h
      rcases formatHoursJson_error h2 with rfl | rfl <;> simp
  | ok sh =>
  simp only [h2] at h
  cases h3 : subscript p "end" with
  | error e =>
      simp only [h3] at h
      cases h
      rcases subscript_error h3 with rfl | rfl <;> simp
  | ok ev =>
  simp only [h3] at h
  cases h4 : formatHoursJson ev with
  | error e =>
      simp only [h4] at h
      cases h
      rcases formatHoursJson_error h4 with rfl | rfl <;> simp
  | ok eh =>
  simp only [h4] at h
  cases h5 : parseDT dateStr sh with
  | none => simp only [h5] at h; cases h; simp
  | some startT =>
  simp only [h5] at h
  cases h6 : parseDT dateStr eh with
  | none => simp only [h6] at h; cases h; simp
  | some endT =>
  simp only [h6] at h
  split at h <;> cases h

theorem processPeriods_error {city group : String} {dateStr : List Char}
    {periods : List Json} {events ev : List (CalendarEvent DateTime)} {e : PyErr}
    (h : processPeriods city group dateStr periods events = (ev, some e)) :
    e = .typeError ∨ e = .keyError ∨ e = .valueError := by
  induction periods generalizing events with
  | nil => simp [processPeriods] at h
  | cons p rest ih =>
      unfold processPeriods at h
      cases hp : processPeriod city group dateStr events p with
      | error e1 =>
          simp only [hp] at h
          cases h
          exact processPeriod_error hp
      | ok ev1 =>
          simp only [hp] at h
          exact ih h

theorem tryDay_error {city group : String}
    {events0 ev : List (CalendarEvent DateTime)} {day : Json} {e : PyErr}
    (h : tryDay city group events0 day = (ev, some e)) :
    e = .typeError ∨ e = .attrError ∨ e = .keyError ∨ e = .valueError := by
  unfold tryDay at h
  cases h1 : subscript day "title" with
  | error e1 =>
      simp only [h1] at h
      cases h
      rcases subscript_error h1 with rfl | rfl <;> simp
  | ok t =>
  simp only [h1] at h
  cases t <;> try (cases h; simp)
  case str s =>
  cases h2 : subscript day "groups" with
  | error e2 =>
      simp only [h2] at h
      cases h
      rcases subscript_error h2 with rfl | rfl <;> simp
  | ok gv =>
  simp only [h2] at h
  cases h3 : subscript gv group with
  | error e3 =>
      simp only [h3] at h
      cases h
      rcases subscript_error h3 with rfl | rfl <;> simp
  | ok pj =>
  simp only [h3] at h
  cases h4 : pyIter pj with
  | error e4 =>
      simp only [h4] at h
      cases h
      rcases pyIter_error h4 with rfl
      simp
  | ok periods =>
  simp only [h4] at h
  rcases processPeriods_error h with rfl | rfl | rfl <;> simp

theorem processDay_error {city group : String}
    {events0 : List (CalendarEvent DateTime)} {day : Json} {r : PyErr}
    (h : processDay city group events0 day = .error r) :
    r = .typeError ∨ r = .attrError := by
  unfold processDay at h
  cases h1 : dictGet day "groups" (Json.obj []) with
  | error e1 =>
      simp only [h1] at h
      cases h
      rcases dictGet_error h1 with rfl
      simp
  | ok g =>
  simp only [h1] at h
  cases h2 : pyIn group g with
  | error e2 =>
      simp only [h2] at h
      cases h
      rcases pyIn_error h2 with rfl
      simp
  | ok b =>
  simp only [h2] at h
  cases b
  · cases h
  · cases h3 : tryDay city group events0 day with
    | mk ev err =>
    cases err with
    | none => simp only [h3] at h; cases h
    | some e =>
        simp only [h3] at h
        by_cases hc : caughtErr e = true
        · rw [if_pos hc] at h; cases h
        · rw [if_neg hc] at h
          cases h
          rcases tryDay_error h3 with rfl | rfl | rfl | rfl <;>
            simp_all [caughtErr]

/-- C5, counterexample.  The claim says the build never raises for
malformed sub-structures, naming non-string titles among the tolerated
cases.  A day whose `title` is the number `5` raises `AttributeError`
(from `.split` on a non-string), which the per-day handlers
(`ValueError`, `KeyError`) do not catch, so the build itself raises. -/
theorem C5_counterexample :
    buildEvents (Json.obj [("dailySchedule", Json.obj [("kiev", Json.obj [("d",
        Json.obj [("title", Json.num 5),
                  ("groups", Json.obj [("1", Json.arr [])])])])])])
      "kiev" "1" = .error PyErr.attrError := rfl

/-- C5, amended.  Per-day containment holds only for `ValueError` and
`KeyError` (unparseable dates and hours, missing fields): any error a
day's processing propagates out of `processDay` is a `TypeError` or an
`AttributeError` (wrong-typed data such as a non-string title, a
non-mapping day entry, or a non-subscriptable period collection), and
those do abort the build.  Within the caught classes the degradation is
as claimed: a day with an unparseable date title contributes nothing
while the other days of the document still produce their intervals. -/
theorem C5_error_containment :
    (∀ (city group : String) (events0 : List (CalendarEvent DateTime))
        (day : Json) (r : PyErr),
      processDay city group events0 day = .error r →
      r = .typeError ∨ r = .attrError) ∧
    buildEvents (Json.obj [("dailySchedule", Json.obj [("kiev", Json.obj [
        ("b", Json.obj [("title", Json.str "junk"),
                        ("groups", Json.obj [("1", Json.arr [periodJson 10 12])])]),
        ("g", Json.obj [("title", Json.str "21.11.2024 на 21 листопада"),
                        ("groups", Json.obj [("1", Json.arr [periodJson 10 12])])])])])])
      "kiev" "1"
      = .ok [mkEvent "1" "kiev" ⟨2024, 11, 21, 10, 0⟩ ⟨2024, 11, 21, 12, 0⟩] := by
  constructor
  · exact fun city group events0 day r h => processDay_error h
  · have pbad : processPeriod "kiev" "1" "junk".data [] (periodJson 10 12)
        = .error PyErr.valueError := by
      have step : processPeriod "kiev" "1" "junk".data [] (periodJson 10 12) =
          (match parseDT "junk".data (formatHoursChars 10) with
            | none => Except.error PyErr.valueError
            | some startT =>
              match parseDT "junk".data (formatHoursChars 12) with
              | none => Except.error PyErr.valueError
              | some endT =>
                if overlapsExisting [] startT endT then Except.ok []
                else Except.ok ([] ++ [mkEvent "1" "kiev" startT endT])) := rfl
      rw [step]
      simp only [fh10, fh12]
      rfl
    have pgood : processPeriod "kiev" "1" "21.11.2024".data [] (periodJson 10 12)
        = .ok [mkEvent "1" "kiev" ⟨2024, 11, 21, 10, 0⟩ ⟨2024, 11, 21, 12, 0⟩] := by
      have step : processPeriod "kiev" "1" "21.11.2024".data [] (periodJson 10 12) =
          (match parseDT "21.11.2024".data (formatHoursChars 10) with
            | none => Except.error PyErr.valueError
            | some startT =>
              match parseDT "21.11.2024".data (formatHoursChars 12) with
              | none => Except.error PyErr.valueError
              | some endT =>
                if overlapsExisting [] startT endT then Except.ok []
                else Except.ok ([] ++ [mkEvent "1" "kiev" startT endT])) := rfl
      rw [step]
      simp only [fh10, fh12]
      rfl
    have hd1 : processDay "kiev" "1" []
        (Json.obj [("title", Json.str "junk"),
                   ("groups", Json.obj [("1", Json.arr [periodJson 10 12])])])
        = .ok [] := by
      simp only [processDay,
        show dictGet (Json.obj [("title", Json.str "junk"),
            ("groups", Json.obj [("1", Json.arr [periodJson 10 12])])]) "groups"
            (Json.obj [])
          = .ok (Json.obj [("1", Json.arr [periodJson 10 12])]) from rfl,
        show pyIn "1" (Json.obj [("1", Json.arr [periodJson 10 12])]) = .ok true from rfl,
        tryDay,
        show subscript (Json.obj [("title", Json.str "junk"),
            ("groups", Json.obj [("1", Json.arr [periodJson 10 12])])]) "title"
          = .ok (Json.str "junk") from rfl,
        show takeUntilSep " на ".data "junk".data = "junk".data from rfl,
        show subscript (Json.obj [("title", Json.str "junk"),
            ("groups", Json.obj [("1", Json.arr [periodJson 10 12])])]) "groups"
          = .ok (Json.obj [("1", Json.arr [periodJson 10 12])]) from rfl,
        show subscript (Json.obj [("1", Json.arr [periodJson 10 12])]) "1"
          = .ok (Json.arr [periodJson 10 12]) from rfl,
        show pyIter (Json.arr [periodJson 10 12]) = .ok [periodJson 10 12] from rfl,
        processPeriods, pbad]
      rfl
    have hd2 : processDay "kiev" "1" []
        (Json.obj [("title", Json.str "21.11.2024 на 21 листопада"),
                   ("groups", Json.obj [("1", Json.arr [periodJson 10 12])])])
        = .ok [mkEvent "1" "kiev" ⟨2024, 11, 21, 10, 0⟩ ⟨2024, 11, 21, 12, 0⟩] := by
      simp only [processDay,
        show dictGet (Json.obj [("title", Json.str "21.11.2024 на 21 листопада"),
            ("groups", Json.obj [("1", Json.arr [periodJson 10 12])])]) "groups"
            (Json.obj [])
          = .ok (Json.obj [("1", Json.arr [periodJson 10 12])]) from rfl,
        show pyIn "1" (Json.obj [("1", Json.arr [periodJson 10 12])]) = .ok true from rfl,
        tryDay,
        show subscript (Json.obj [("title", Json.str "21.11.2024 на 21 листопада"),
            ("groups", Json.obj [("1", Json.arr [periodJson 10 12])])]) "title"
          = .ok (Json.str "21.11.2024 на 21 листопада") from rfl,
        show takeUntilSep " на ".data "21.11.2024 на 21 листопада".data
          = "21.11.2024".data from rfl,
        show subscript (Json.obj [("title", Json.str "21.11.2024 на 21 листопада"),
            ("groups", Json.obj [("1", Json.arr [periodJson 10 12])])]) "groups"
          = .ok (Json.obj [("1", Json.arr [periodJson 10 12])]) from rfl,
        show subscript (Json.obj [("1", Json.arr [periodJson 10 12])]) "1"
          = .ok (Json.arr [periodJson 10 12]) from rfl,
        show pyIter (Json.arr [periodJson 10 12]) = .ok [periodJson 10 12] from rfl,
        processPeriods, pgood]
    simp only [buildEvents, processSchedule,
      show find (Json.obj [("dailySchedule", Json.obj [("kiev", Json.obj [
          ("b", Json.obj [("title", Json.str "junk"),
                          ("groups", Json.obj [("1", Json.arr [periodJson 10 12])])]),
          ("g", Json.obj [("title", Json.str "21.11.2024 на 21 листопада"),
                          ("groups", Json.obj [("1", Json.arr [periodJson 10 12])])])])])])
          "dailySchedule"
        = some (Json.obj [("kiev", Json.obj [
            ("b", Json.obj [("title", Json.str "junk"),
                            ("groups", Json.obj [("1", Json.arr [periodJson 10 12])])]),
            ("g", Json.obj [("title", Json.str "21.11.2024 на 21 листопада"),
                            ("groups", Json.obj [("1", Json.arr [periodJson 10 12])])])])])
          from rfl,
      show find (Json.obj [("dailySchedule", Json.obj [("kiev", Json.obj [
          ("b", Json.obj [("title", Json.str "junk"),
                          ("groups", Json.obj [("1", Json.arr [periodJson 10 12])])]),
          ("g", Json.obj [("title", Json.str "21.11.2024 на 21 листопада"),
                          ("groups", Json.obj [("1", Json.arr [periodJson 10 12])])])])])])
          "tomorrowSchedule" = none from rfl,
      show truthy (Json.obj [("kiev", Json.obj [
          ("b", Json.obj [("title", Json.str "junk"),
                          ("groups", Json.obj [("1", Json.arr [periodJson 10 12])])]),
          ("g", Json.obj [("title", Json.str "21.11.2024 на 21 листопада"),
                          ("groups", Json.obj [("1", Json.arr [periodJson 10 12])])])])])
        = true from rfl,
      show pyIn "kiev" (Json.obj [("kiev", Json.obj [
          ("b", Json.obj [("title", Json.str "junk"),
                          ("groups", Json.obj [("1", Json.arr [periodJson 10 12])])]),
          ("g", Json.obj [("title", Json.str "21.11.2024 на 21 листопада"),
                          ("groups", Json.obj [("1", Json.arr [periodJson 10 12])])])])])
        = .ok true from rfl,
      show subscript (Json.obj [("kiev", Json.obj [
          ("b", Json.obj [("title", Json.str "junk"),
                          ("groups", Json.obj [("1", Json.arr [periodJson 10 12])])]),
          ("g", Json.obj [("title", Json.str "21.11.2024 на 21 листопада"),
                          ("groups", Json.obj [("1", Json.arr [periodJson 10 12])])])])])
          "kiev"
        = .ok (Json.obj [
            ("b", Json.obj [("title", Json.str "junk"),
                            ("groups", Json.obj [("1", Json.arr [periodJson 10 12])])]),
            ("g", Json.obj [("title", Json.str "21.11.2024 на 21 листопада"),
                            ("groups", Json.obj [("1", Json.arr [periodJson 10 12])])])])
          from rfl,
      show pyValues (Json.obj [
          ("b", Json.obj [("title", Json.str "junk"),
                          ("groups", Json.obj [("1", Json.arr [periodJson 10 12])])]),
          ("g", Json.obj [("title", Json.str "21.11.2024 на 21 листопада"),
                          ("groups", Json.obj [("1", Json.arr [periodJson 10 12])])])])
        = .ok [Json.obj [("title", Json.str "junk"),
                         ("groups", Json.obj [("1", Json.arr [periodJson 10 12])])],
               Json.obj [("title", Json.str "21.11.2024 на 21 листопада"),
                         ("groups", Json.obj [("1", Json.arr [periodJson 10 12])])]]
          from rfl,
      processDays, hd1, hd2]
    rfl

/-- Witness for the hypothesis-bearing conjunct of
`C5_error_containment`: a non-dict day entry (`1`) propagates
`AttributeError` out of the day loop. -/
theorem C5_witness :
    PyErr.attrError = PyErr.typeError ∨ PyErr.attrError = PyErr.attrError :=
  C5_error_containment.1 "kiev" "1" [] (Json.num 1) PyErr.attrError rfl

/-! ### Grid status (claim C6) -/

theorem processSchedule_skip {data : Json} {t city group : String}
    {ev : List (CalendarEvent DateTime)}
    (h : ∀ sched, find data t = some sched →
      truthy sched = false ∨
        ∃ fields, sched = Json.obj fields ∧ lookupKey fields city = none) :
    processSchedule data t city group ev = .ok ev := by
  unfold processSchedule
  cases hf : find data t with
  | none => rfl
  | some sched =>
      rcases h sched hf with ht | ⟨fields, rfl, hl⟩
      · simp [ht]
      · rcases htr : truthy (Json.obj fields) <;> simp [htr, pyIn, hl]

/-- C6.  First conjunct: the tri-state derived by the entity is
`noSchedule` exactly on the empty interval sequence, `outage` exactly
when some interval contains `now` with inclusive boundaries, and
`gridOn` otherwise.  Second conjunct: when, for both schedule types, the
extractor finds nothing, or finds a falsy sub-document, or finds an
object that does not contain the configured city as a key, the build
yields the empty sequence, whose status is `noSchedule` at every
instant. -/
theorem C6_status :
    (∀ {τ : Type} [LinearOrder τ] (events : List (CalendarEvent τ)) (now : τ),
      (statusAt events now = .noSchedule ↔ events = []) ∧
      (statusAt events now = .outage ↔
        events ≠ [] ∧ ∃ e ∈ events, e.start ≤ now ∧ now ≤ e.stop) ∧
      (statusAt events now = .gridOn ↔
        events ≠ [] ∧ ¬ ∃ e ∈ events, e.start ≤ now ∧ now ≤ e.stop)) ∧
    (∀ (data : Json) (city group : String),
      (∀ sched, find data "dailySchedule" = some sched →
        truthy sched = false ∨
          ∃ fields, sched = Json.obj fields ∧ lookupKey fields city = none) →
      (∀ sched, find data "tomorrowSchedule" = some sched →
        truthy sched = false ∨
          ∃ fields, sched = Json.obj fields ∧ lookupKey fields city = none) →
      buildEvents data city group = .ok [] ∧
      ∀ now : DateTime,
        statusAt ([] : List (CalendarEvent DateTime)) now = .noSchedule) := by
  constructor
  · intro τ _ events now
    cases events with
    | nil => exact ⟨by simp [statusAt], by simp [statusAt], by simp [statusAt]⟩
    | cons a l =>
        have hne : (a :: l : List (CalendarEvent τ)) ≠ [] := by simp
        by_cases hf : ∃ e ∈ a :: l, e.start ≤ now ∧ now ≤ e.stop
        · have hs : statusAt (a :: l) now = .outage := by
            have hsome : ((a :: l).find? fun e =>
                decide (e.start ≤ now ∧ now ≤ e.stop)).isSome = true := by
              rw [List.find?_isSome]
              simpa using hf
            simp only [statusAt, List.isEmpty_cons, hsome]
            rfl
          rw [hs]
          exact ⟨Iff.intro (fun h => nomatch h) (fun h => absurd h hne),
                 Iff.intro (fun _ => ⟨hne, hf⟩) (fun _ => rfl),
                 Iff.intro (fun h => nomatch h) (fun h => absurd hf h.2)⟩
        · have hs : statusAt (a :: l) now = .gridOn := by
            have hnone : ((a :: l).find? fun e =>
                decide (e.start ≤ now ∧ now ≤ e.stop)).isSome = false := by
              rw [Bool.eq_false_iff]
              intro hcon
              rw [List.find?_isSome] at hcon
              exact hf (by simpa using hcon)
            simp only [statusAt, List.isEmpty_cons, hnone]
            rfl
          rw [hs]
          exact ⟨Iff.intro (fun h => nomatch h) (fun h => absurd h hne),
                 Iff.intro (fun h => nomatch h) (fun h => absurd h.2 hf),
                 Iff.intro (fun _ => ⟨hne, hf⟩) (fun _ => rfl)⟩
  · intro data city group h1 h2
    have b1 := @processSchedule_skip data "dailySchedule" city group [] h1
    have b2 := @processSchedule_skip data "tomorrowSchedule" city group [] h2
    refine ⟨?_, fun now => rfl⟩
    simp only [buildEvents, b1, b2]
    rfl

/-- Witness for the hypothesis-bearing conjunct of `C6_status`: on the
document `null` the extractor finds neither schedule key, the build is
empty and the status reads `noSchedule`. -/
theorem C6_witness :
    buildEvents Json.null "kiev" "1" = .ok [] ∧
    statusAt ([] : List (CalendarEvent DateTime)) ⟨2024, 11, 21, 0, 0⟩ = .noSchedule :=
  ⟨(C6_status.2 Json.null "kiev" "1" (fun _ h => nomatch h) (fun _ h => nomatch h)).1,
   (C6_status.2 Json.null "kiev" "1" (fun _ h => nomatch h) (fun _ h => nomatch h)).2
     ⟨2024, 11, 21, 0, 0⟩⟩

/-! ### The range query (claim C7) -/

/-- C7.  The `src/calendar.py` query returns exactly the stored events
whose start falls in the window, whose end falls in the window, or which
fully contain the window, all inclusive (first conjunct), and behaves as
the claim's examples say (second and third conjuncts): window
`[11:30, 14:00]` returns the interval `10:00-12:00`, window
`[08:00, 09:00]` returns nothing.  The `custom_components` copy of the
query, however, compares `end.start` — `end` an undefined name — in its
second disjunct, so on the same `[08:00, 09:00]` example, where the
event's start lies outside the window and the second disjunct is
evaluated, it raises `NameError` instead of returning the empty list
(fourth conjunct). -/
theorem C7_range_query :
    (∀ {τ : Type} [LinearOrder τ] (events : List (CalendarEvent τ)) (a b : τ)
        (e : CalendarEvent τ),
      e ∈ getEventsSrc events a b ↔
        e ∈ events ∧ ((a ≤ e.start ∧ e.start ≤ b) ∨ (a ≤ e.stop ∧ e.stop ≤ b) ∨
          (e.start ≤ a ∧ b ≤ e.stop))) ∧
    getEventsSrc [⟨"o", ⟨2024, 11, 21, 10, 0⟩, ⟨2024, 11, 21, 12, 0⟩, "d"⟩]
        (⟨2024, 11, 21, 11, 30⟩ : DateTime) ⟨2024, 11, 21, 14, 0⟩
      = [⟨"o", ⟨2024, 11, 21, 10, 0⟩, ⟨2024, 11, 21, 12, 0⟩, "d"⟩] ∧
    getEventsSrc [⟨"o", ⟨2024, 11, 21, 10, 0⟩, ⟨2024, 11, 21, 12, 0⟩, "d"⟩]
        (⟨2024, 11, 21, 8, 0⟩ : DateTime) ⟨2024, 11, 21, 9, 0⟩
      = [] ∧
    getEventsCustom [⟨"o", ⟨2024, 11, 21, 10, 0⟩, ⟨2024, 11, 21, 12, 0⟩, "d"⟩]
        (⟨2024, 11, 21, 8, 0⟩ : DateTime) ⟨2024, 11, 21, 9, 0⟩
      = .error PyErr.nameError := by
  refine ⟨?_, by decide, by decide, rfl⟩
  intro τ _ events a b e
  simp [getEventsSrc, List.mem_filter]

/-! ### City matching (claim C8) -/

theorem pp1012 :
    processPeriod "kiev" "1" ['2', '1', '.', '1', '1', '.', '2', '0', '2', '4'] [] (periodJson 10 12)
      = .ok [mkEvent "1" "kiev" ⟨2024, 11, 21, 10, 0⟩ ⟨2024, 11, 21, 12, 0⟩] := by
  have step : processPeriod "kiev" "1" ['2', '1', '.', '1', '1', '.', '2', '0', '2', '4'] []
      (periodJson 10 12) =
      (match parseDT ['2', '1', '.', '1', '1', '.', '2', '0', '2', '4'] (formatHoursChars 10) with
        | none => Except.error PyErr.valueError
        | some startT =>
          match parseDT ['2', '1', '.', '1', '1', '.', '2', '0', '2', '4'] (formatHoursChars 12) with
          | none => Except.error PyErr.valueError
          | some endT =>
            if overlapsExisting [] startT endT then Except.ok []
            else Except.ok ([] ++ [mkEvent "1" "kiev" startT endT])) := rfl
  rw [step]
  simp only [fh10, fh12]
  rfl

/-- C8, counterexample.  The claim says the configured city is matched
against the document's city keys case-insensitively.  With the city
configured as `kiev`, the same one-day document yields the day's
interval when its key is `kiev` but yields nothing when its key is
`Kiev`: the match is exact and case-sensitive. -/
theorem C8_counterexample :
    buildEvents (Json.obj [("dailySchedule", Json.obj [("Kiev", Json.obj [("d", Json.obj [
        ("title", Json.str "21.11.2024 на 21 листопада"),
        ("groups", Json.obj [("1", Json.arr [periodJson 10 12])])])])])]) "kiev" "1"
      = .ok [] ∧
    buildEvents (oneDayDoc [periodJson 10 12]) "kiev" "1"
      = .ok [mkEvent "1" "kiev" ⟨2024, 11, 21, 10, 0⟩ ⟨2024, 11, 21, 12, 0⟩] := by
  constructor
  · rfl
  · rw [buildEvents_oneDayDoc [periodJson 10 12] rfl]
    simp only [processPeriods, pp1012]
    rfl

/-- C8, amended.  City selection is by exact, case-sensitive key lookup
with no normalization: a schedule object is skipped whenever the
configured city string is not literally one of its keys (first
conjunct), and is entered on its city value exactly when it is (second
conjunct). -/
theorem C8_exact_city_match :
    (∀ (data : Json) (t city group : String) (ev : List (CalendarEvent DateTime))
        (fields : List (String × Json)),
      find data t = some (Json.obj fields) →
      lookupKey fields city = none →
      processSchedule data t city group ev = .ok ev) ∧
    (∀ (data : Json) (t city group : String) (ev : List (CalendarEvent DateTime))
        (fields : List (String × Json)) (cd : Json),
      find data t = some (Json.obj fields) →
      truthy (Json.obj fields) = true →
      lookupKey fields city = some cd →
      processSchedule data t city group ev =
        match pyValues cd with
        | .error e => .error e
        | .ok days => processDays city group days ev) := by
  constructor
  · intro data t city group ev fields hf hl
    exact processSchedule_skip fun sched h' => by
      rw [hf] at h'
      cases h'
      exact Or.inr ⟨fields, rfl, hl⟩
  · intro data t city group ev fields cd hf htr hl
    unfold processSchedule
    rw [hf]
    simp only [htr, if_true, pyIn, hl, Option.isSome_some, subscript]

/-- Witness for `C8_exact_city_match`: the `Kiev`-keyed schedule is
skipped for the configured city `kiev`, and the lowercase-keyed one is
entered on its city value. -/
theorem C8_witness :
    processSchedule (Json.obj [("dailySchedule", Json.obj [("Kiev", Json.obj [("d", Json.obj [
        ("title", Json.str "21.11.2024 на 21 листопада"),
        ("groups", Json.obj [("1", Json.arr [periodJson 10 12])])])])])])
      "dailySchedule" "kiev" "1" [] = .ok [] :=
  C8_exact_city_match.1 _ "dailySchedule" "kiev" "1" []
    [("Kiev", Json.obj [("d", Json.obj [
        ("title", Json.str "21.11.2024 на 21 листопада"),
        ("groups", Json.obj [("1", Json.arr [periodJson 10 12])])])])]
    rfl rfl

/-! ### The two upcoming-event implementations (claim C9) -/

theorem minByStart_head {τ : Type} [LinearOrder τ] (b : CalendarEvent τ)
    (xs : List (CalendarEvent τ)) (h : ∀ x ∈ xs, ¬ x.start < b.start) :
    xs.foldl (fun b e => if e.start < b.start then e else b) b = b := by
  induction xs generalizing b with
  | nil => rfl
  | cons x xs ih =>
      rw [List.foldl_cons, if_neg (h x (List.mem_cons_self x xs))]
      exact ih b fun y hy => h y (List.mem_cons_of_mem x hy)

/-- C9, counterexample.  The claim says the two `event` implementations
agree for every sorted event sequence and instant, including at the
boundary where an event's end equals `now`.  At that boundary they
differ: for the single event `[0, 10]` over `ℤ` and `now = 10`, the
`src` version's filter `end > now` drops the event and yields absent,
while the `custom_components` version returns it as the current event
(`start ≤ now ≤ end` holds). -/
theorem C9_counterexample :
    eventSrc [(⟨"o", 0, 10, "d"⟩ : CalendarEvent ℤ)] 10 = none ∧
    eventCustom [(⟨"o", 0, 10, "d"⟩ : CalendarEvent ℤ)] 10
      = some ⟨"o", 0, 10, "d"⟩ ∧
    eventSrc [(⟨"o", 0, 10, "d"⟩ : CalendarEvent ℤ)] 10
      ≠ eventCustom [(⟨"o", 0, 10, "d"⟩ : CalendarEvent ℤ)] 10 := by
  refine ⟨rfl, rfl, by decide⟩

/-- C9, amended.  The two implementations agree on every event sequence
that is sorted by start and whose events satisfy `start ≤ end`, at every
instant `now` that is not exactly the end of a stored event; at
`now = end` of a current event the `src` version skips it (its `end >
now` filter fails) while the `custom_components` version returns it. -/
theorem C9_event_agreement {τ : Type} [LinearOrder τ]
    (events : List (CalendarEvent τ)) (now : τ)
    (hsort : events.Pairwise fun e f => e.start ≤ f.start)
    (hwf : ∀ e ∈ events, e.start ≤ e.stop)
    (hnb : ∀ e ∈ events, e.stop ≠ now) :
    eventSrc events now = eventCustom events now := by
  induction events with
  | nil => rfl
  | cons e rest ih =>
      have hall : ∀ f ∈ rest, e.start ≤ f.start := (List.pairwise_cons.mp hsort).1
      have hsort' := (List.pairwise_cons.mp hsort).2
      have hse : e.start ≤ e.stop := hwf e (List.mem_cons_self e rest)
      have hne : e.stop ≠ now := hnb e (List.mem_cons_self e rest)
      have hwf' : ∀ f ∈ rest, f.start ≤ f.stop :=
        fun f hf => hwf f (List.mem_cons_of_mem e hf)
      have hnb' : ∀ f ∈ rest, f.stop ≠ now :=
        fun f hf => hnb f (List.mem_cons_of_mem e hf)
      rcases lt_or_gt_of_ne hne with hl | hg
      · -- the head event ended strictly before now: both sides ignore it
        have h1 : eventSrc (e :: rest) now = eventSrc rest now := by
          unfold eventSrc
          rw [List.filter_cons, if_neg (by simpa using not_lt.mpr hl.le)]
        have h2 : eventCustom (e :: rest) now = eventCustom rest now := by
          unfold eventCustom
          rw [List.find?_cons_of_neg _ (by simp [not_le.mpr hl]),
            List.filter_cons,
            if_neg (by simpa using not_lt.mpr ((le_of_lt (lt_of_le_of_lt hse hl))))]
        rw [h1, h2]
        exact ih hsort' hwf' hnb'
      · by_cases hc : e.start ≤ now
        · -- current event: both return the head
          have hcustom : eventCustom (e :: rest) now = some e := by
            unfold eventCustom
            rw [List.find?_cons_of_pos _ (by simp [hc, hg.le])]
          have hsrc : eventSrc (e :: rest) now = some e := by
            unfold eventSrc
            rw [List.filter_cons, if_pos (by simpa using hg)]
            show some _ = some e
            exact congrArg some (minByStart_head e _ fun x hx =>
              not_lt.mpr (hall x (List.mem_of_mem_filter hx)))
          rw [hsrc, hcustom]
        · -- the head (hence every event) is in the future: the filters agree
          push_neg at hc
          have hnofind : List.find? (fun f => decide (f.start ≤ now ∧ now ≤ f.stop))
              (e :: rest) = none := by
            rw [List.find?_eq_none]
            intro f hf
            simp only [decide_eq_true_eq, not_and]
            intro hfs
            rcases List.mem_cons.mp hf with rfl | hf'
            · exact absurd hfs (not_le.mpr hc)
            · exact absurd hfs (not_le.mpr (lt_of_lt_of_le hc (hall f hf')))
          have hfilterC : List.filter (fun f => decide (now < f.start)) (e :: rest)
              = e :: rest := by
            rw [List.filter_eq_self]
            intro f hf
            simp only [decide_eq_true_eq]
            rcases List.mem_cons.mp hf with rfl | hf'
            · exact hc
            · exact lt_of_lt_of_le hc (hall f hf')
          have hfilterS : List.filter (fun f => decide (now < f.stop)) (e :: rest)
              = e :: rest := by
            rw [List.filter_eq_self]
            intro f hf
            simp only [decide_eq_true_eq]
            rcases List.mem_cons.mp hf with rfl | hf'
            · exact hg
            · exact lt_of_lt_of_le (lt_of_lt_of_le hc (hall f hf')) (hwf' f hf')
          unfold eventSrc eventCustom
          rw [hnofind, hfilterC, hfilterS]

/-- Witness for `C9_event_agreement`: on the sorted sequence
`[(0, 5), (6, 8)]` over `ℤ` at `now = 3` (no end equals 3) both
implementations return the current event `(0, 5)`. -/
theorem C9_witness :
    eventSrc [(⟨"a", 0, 5, "d"⟩ : CalendarEvent ℤ), ⟨"b", 6, 8, "d"⟩] 3
      = eventCustom [(⟨"a", 0, 5, "d"⟩ : CalendarEvent ℤ), ⟨"b", 6, 8, "d"⟩] 3 :=
  C9_event_agreement [⟨"a", 0, 5, "d"⟩, ⟨"b", 6, 8, "d"⟩] 3
    (by decide) (by decide) (by decide)

/-! ### Midnight rollover, 24.0 (claim C10) -/

theorem takeDigits_split (zs ts : List Char) (hts : takeDigits ts = ([], ts)) :
    (takeDigits (zs ++ ts) = (zs, ts) ∧ zs.all Char.isDigit = true) ∨
    (∃ A c B, zs = A ++ c :: B ∧ c.isDigit = false ∧
      takeDigits (zs ++ ts) = (A, c :: (B ++ ts))) := by
  induction zs with
  | nil => exact Or.inl ⟨by simpa using hts, rfl⟩
  | cons z zs ih =>
      by_cases hz : z.isDigit
      · rcases ih with ⟨h1, h2⟩ | ⟨A, c, B, rfl, hc, h3⟩
        · refine Or.inl ⟨?_, by simp [hz, h2]⟩
          simp [takeDigits, hz, h1]
        · refine Or.inr ⟨z :: A, c, B, rfl, hc, ?_⟩
          have h3' : takeDigits (A ++ c :: (B ++ ts)) = (A, c :: (B ++ ts)) := by
            simpa using h3
          simp [takeDigits, hz, h3']
      · exact Or.inr ⟨[], z, zs, rfl, by simpa using hz, by simp [takeDigits, hz]⟩

theorem parseTimePart_2400 (dds mds yds : List Char) :
    parseTimePart dds mds yds ('2' :: '4' :: ':' :: '0' :: '0' :: []) = none := by
  have step : parseTimePart dds mds yds ('2' :: '4' :: ':' :: '0' :: '0' :: []) =
      (if ([] : List Char) = [] ∧
          1 ≤ dds.length ∧ dds.length ≤ 2 ∧
          1 ≤ mds.length ∧ mds.length ≤ 2 ∧
          yds.length = 4 ∧
          1 ≤ (['2', '4'] : List Char).length ∧ (['2', '4'] : List Char).length ≤ 2 ∧
          1 ≤ (['0', '0'] : List Char).length ∧ (['0', '0'] : List Char).length ≤ 2 ∧
          1 ≤ digitsVal yds ∧ 1 ≤ digitsVal mds ∧ digitsVal mds ≤ 12 ∧
          1 ≤ digitsVal dds ∧
          digitsVal dds ≤ daysInMonth (digitsVal mds) (digitsVal yds) ∧
          digitsVal ['2', '4'] ≤ 23 ∧ digitsVal ['0', '0'] ≤ 59 then
        some ⟨digitsVal yds, digitsVal mds, digitsVal dds,
          digitsVal ['2', '4'], digitsVal ['0', '0']⟩
      else none) := rfl
  rw [step, if_neg]
  rintro ⟨-, -, -, -, -, -, -, -, -, -, -, -, -, -, -, h24, -⟩
  exact absurd h24 (by decide)

theorem parseYearPart_2400 (zs : List Char) (hsp : ' ' ∉ zs) (dds mds : List Char) :
    parseYearPart dds mds (zs ++ ' ' :: '2' :: '4' :: ':' :: '0' :: '0' :: []) = none := by
  unfold parseYearPart
  rcases takeDigits_split zs (' ' :: '2' :: '4' :: ':' :: '0' :: '0' :: []) rfl with
    ⟨heq, -⟩ | ⟨A, c, B, rfl, hc, heq⟩
  · rw [heq]
    exact parseTimePart_2400 dds mds zs
  · have hcne : c ≠ ' ' := fun h =>
      hsp (h ▸ List.mem_append_right A (List.mem_cons_self c B))
    rw [heq]
    show (match c :: (B ++ ' ' :: '2' :: '4' :: ':' :: '0' :: '0' :: []) with
      | ' ' :: r6 => parseTimePart dds mds A r6
      | _ => none) = none
    split
    next r6 heq2 =>
      injection heq2 with h1 h2
      exact absurd h1 hcne
    next => rfl

theorem parseMonthPart_2400 (zs : List Char) (hsp : ' ' ∉ zs) (dds : List Char) :
    parseMonthPart dds (zs ++ ' ' :: '2' :: '4' :: ':' :: '0' :: '0' :: []) = none := by
  unfold parseMonthPart
  rcases takeDigits_split zs (' ' :: '2' :: '4' :: ':' :: '0' :: '0' :: []) rfl with
    ⟨heq, -⟩ | ⟨A, c, B, rfl, hc, heq⟩
  · rw [heq]
    rfl
  · rw [heq]
    show (match c :: (B ++ ' ' :: '2' :: '4' :: ':' :: '0' :: '0' :: []) with
      | '.' :: r4 => parseYearPart dds A r4
      | _ => none) = none
    split
    next r4 heq2 =>
      injection heq2 with h1 h2
      rw [← h2]
      exact parseYearPart_2400 B
        (fun h => hsp (List.mem_append_right A (List.mem_cons_of_mem _ h))) dds A
    next => rfl

theorem parseDT_2400 (ds : List Char) (hsp : ' ' ∉ ds) :
    parseDT ds "24:00".data = none := by
  show parseDateTimeChars (ds ++ ' ' :: '2' :: '4' :: ':' :: '0' :: '0' :: []) = none
  unfold parseDateTimeChars
  rcases takeDigits_split ds (' ' :: '2' :: '4' :: ':' :: '0' :: '0' :: []) rfl with
    ⟨heq, -⟩ | ⟨A, c, B, rfl, hc, heq⟩
  · rw [heq]
    rfl
  · rw [heq]
    show (match c :: (B ++ ' ' :: '2' :: '4' :: ':' :: '0' :: '0' :: []) with
      | '.' :: r2 => parseMonthPart A r2
      | _ => none) = none
    split
    next r2 heq2 =>
      injection heq2 with h1 h2
      rw [← h2]
      exact parseMonthPart_2400 B
        (fun h => hsp (List.mem_append_right A (List.mem_cons_of_mem _ h))) A
    next => rfl

/-- A period whose `start` or `end` is the number 24.0 always raises
`ValueError`: the offending field is formatted as `"24:00"`, which the
`strptime` model rejects for every space-free date token. -/
theorem processPeriod_24 (city group : String) (dateStr : List Char)
    (hsp : ' ' ∉ dateStr) (events : List (CalendarEvent DateTime)) (qs qe : ℚ)
    (h24 : qs = 24 ∨ qe = 24) :
    processPeriod city group dateStr events (periodJson qs qe)
      = .error PyErr.valueError := by
  have step : processPeriod city group dateStr events (periodJson qs qe) =
      (match parseDT dateStr (formatHoursChars qs) with
        | none => Except.error PyErr.valueError
        | some startT =>
          match parseDT dateStr (formatHoursChars qe) with
          | none => Except.error PyErr.valueError
          | some endT =>
            if overlapsExisting events startT endT then Except.ok events
            else Except.ok (events ++ [mkEvent group city startT endT])) := rfl
  rw [step]
  rcases h24 with rfl | rfl
  · rw [fh24, parseDT_2400 dateStr hsp]
  · cases hq : parseDT dateStr (formatHoursChars qs) with
    | none => rfl
    | some startT =>
        simp only [hq, fh24, parseDT_2400 dateStr hsp]

theorem processPeriods_append (city group : String) (dateStr : List Char)
    (xs ys : List Json) (events : List (CalendarEvent DateTime)) :
    processPeriods city group dateStr (xs ++ ys) events =
      match processPeriods city group dateStr xs events with
      | (ev, none) => processPeriods city group dateStr ys ev
      | (ev, some e) => (ev, some e) := by
  induction xs generalizing events with
  | nil => rfl
  | cons p rest ih =>
      have hcons : processPeriods city group dateStr (p :: rest) events =
          (match processPeriod city group dateStr events p with
            | .ok ev => processPeriods city group dateStr rest ev
            | .error e => (events, some e)) := rfl
      have hcons2 : processPeriods city group dateStr ((p :: rest) ++ ys) events =
          (match processPeriod city group dateStr events p with
            | .ok ev => processPeriods city group dateStr (rest ++ ys) ev
            | .error e => (events, some e)) := rfl
      rw [hcons2, hcons]
      cases hp : processPeriod city group dateStr events p with
      | ok ev => exact ih ev
      | error e => rfl

/-- C10.  A period of the day's list whose `start` or `end` equals 24.0
(the top of the declared fractional-hour range) is formatted as
`"24:00"`, which the date parser rejects with `ValueError`: when the
periods already processed succeeded, the loop stops at the offending
period with exactly their accumulated events — the bad period produces
no interval, every later period of the day is dropped, and the events
of the earlier periods are kept (the `ValueError` is then caught at the
day level). -/
theorem C10_midnight_rollover (city group : String) (dateStr : List Char)
    (hsp : ' ' ∉ dateStr) (pre post : List Json)
    (events ev' : List (CalendarEvent DateTime)) (qs qe : ℚ)
    (h24 : qs = 24 ∨ qe = 24)
    (hpre : processPeriods city group dateStr pre events = (ev', none)) :
    processPeriods city group dateStr (pre ++ periodJson qs qe :: post) events
      = (ev', some PyErr.valueError) ∧ caughtErr PyErr.valueError = true := by
  refine ⟨?_, rfl⟩
  rw [processPeriods_append, hpre]
  show (match processPeriod city group dateStr ev' (periodJson qs qe) with
    | .ok ev => processPeriods city group dateStr post ev
    | .error e => (ev', some e)) = _
  rw [processPeriod_24 city group dateStr hsp ev' qs qe h24]

/-- Witness for `C10_midnight_rollover`: after the period `10-12`
decodes, the period `22-24` stops the day's loop with `ValueError`, the
period `5-6` after it is dropped, and the `10:00-12:00` interval
remains. -/
theorem C10_witness :
    processPeriods "kiev" "1" ['2', '1', '.', '1', '1', '.', '2', '0', '2', '4']
        ([periodJson 10 12] ++ periodJson 22 24 :: [periodJson 5 6]) []
      = ([mkEvent "1" "kiev" ⟨2024, 11, 21, 10, 0⟩ ⟨2024, 11, 21, 12, 0⟩],
         some PyErr.valueError) ∧ caughtErr PyErr.valueError = true :=
  C10_midnight_rollover "kiev" "1" ['2', '1', '.', '1', '1', '.', '2', '0', '2', '4']
    (by decide) [periodJson 10 12] [periodJson 5 6] []
    [mkEvent "1" "kiev" ⟨2024, 11, 21, 10, 0⟩ ⟨2024, 11, 21, 12, 0⟩] 22 24
    (Or.inr rfl)
    (by
      show (match processPeriod "kiev" "1" ['2', '1', '.', '1', '1', '.', '2', '0', '2', '4']
          [] (periodJson 10 12) with
        | .ok ev => processPeriods "kiev" "1" ['2', '1', '.', '1', '1', '.', '2', '0', '2', '4'] [] ev
        | .error e => ([], some e)) = _
      rw [pp1012]
      rfl)


end Yasno
